import Mathlib

/-!
Verification development for the next-api dynamic-imports pipeline
(crates/next-api/src/dynamic_imports.rs and crates/next-api/src/loadable_manifest.rs).

The Rust sources are shallowly embedded below: pure AST traversals become
recursive Lean functions, turbo-tasks cells and external services (parsing,
module resolution, chunking, file-system paths) become explicit oracle
parameters, and a Rust panic (an `unwrap` on `None`) is modelled as `none`
in an `Option`-valued result.
-/

namespace NextApi

/-- Opaque identity of a module (stands for a `ResolvedVc` of a module). -/
abbrev ModuleRef := Nat

/-- Opaque identity of a chunk reference returned by the async loader. -/
abbrev ChunkRef := Nat

/-- Opaque identity of an output asset. -/
abbrev OutputAssetRef := Nat

/-- A module id as rendered by `module_id.to_string()` (turbopack `ModuleId`
is external to this repository; the emitter only uses its string form). -/
abbrev ModuleIdStr := String

/-! AST fragment mirroring the swc nodes that the two visitors in
`dynamic_imports.rs` inspect.  `call` is a `CallExpr` whose callee is
`Callee::Expr`; `importCall` is a `CallExpr` whose callee is
`Callee::Import`; `otherNode` stands for any other AST node, whose children
are visited in order by the default `Visit` implementations. -/

inductive ImportSpecifier where
  | importDefaultSpecifier (localName : String)
  | importNamedSpecifier (localName : String)
deriving DecidableEq

inductive Expr where
  | ident (sym : String)
  | strLit (value : String)
  | numLit (value : Nat)
  | call (callee : Expr) (args : List Expr)
  | importCall (args : List Expr)
  | arrow (body : Expr)
  | otherNode (children : List Expr)

inductive ModuleItem where
  | importDecl (src : String) (specifiers : List ImportSpecifier)
  | stmt (e : Expr)

/-! CollectImportSourceVisitor: `visit_call_expr` is overridden and does not
recurse into any call's children; when the callee is `Callee::Import` and the
first argument is a string literal, `import_source` is set to its value.
All other node kinds use the default recursive visit. -/

mutual

def collect_visit_expr (s : Option String) : Expr → Option String
  | .ident _ => s
  | .strLit _ => s
  | .numLit _ => s
  | .call _ _ => s
  | .importCall args =>
      match args.head? with
      | some (.strLit v) => some v
      | _ => s
  | .arrow body => collect_visit_expr s body
  | .otherNode children => collect_visit_exprs s children

def collect_visit_exprs (s : Option String) : List Expr → Option String
  | [] => s
  | e :: es => collect_visit_exprs (collect_visit_expr s e) es

end

/-! Statement-level predicate for the collector's reach: an expression list
contains an inspectable dynamic-import expression with first argument the
string literal v exactly when such an import call is reachable from the list
by descending through non-call expressions only — the positions
`CollectImportSourceVisitor` can visit, since its overridden `visit_call_expr`
never recurses into a call's children. -/

mutual

def inspected_import_expr (v : String) : Expr → Bool
  | .importCall (.strLit w :: _) => w == v
  | .arrow body => inspected_import_expr v body
  | .otherNode children => inspected_import_exprs v children
  | _ => false

def inspected_import_exprs (v : String) : List Expr → Bool
  | [] => false
  | e :: es => inspected_import_expr v e || inspected_import_exprs v es

end

/-- State of `DynamicImportVisitor`: the tracked local binding of the default
specifier of the most recent `next/dynamic` import declaration, and the
literals collected so far. -/
structure ScanState where
  dynamic_ident : Option String
  import_sources : List String

/-- Handling of a wrapper call inside `DynamicImportVisitor::visit_call_expr`:
when the callee is an identifier whose symbol equals the tracked binding, the
call's children (callee first, then arguments) are visited with a fresh
`CollectImportSourceVisitor`, and a found literal is appended. -/
def wrapper_call_match (s : ScanState) (callee : Expr) (args : List Expr) : ScanState :=
  match callee with
  | .ident sym =>
      match s.dynamic_ident with
      | some d =>
          if sym = d then
            match collect_visit_exprs (collect_visit_expr none (Expr.ident sym)) args with
            | some src => { s with import_sources := s.import_sources ++ [src] }
            | none => s
          else s
      | none => s
  | _ => s

/-! DynamicImportVisitor: `visit_call_expr` first runs the wrapper-call check
above and then unconditionally visits the call's children; every other
expression kind uses the default recursive visit. -/

mutual

def scan_visit_expr (s : ScanState) : Expr → ScanState
  | .ident _ => s
  | .strLit _ => s
  | .numLit _ => s
  | .arrow body => scan_visit_expr s body
  | .otherNode children => scan_visit_exprs s children
  | .importCall args => scan_visit_exprs s args
  | .call callee args =>
      scan_visit_exprs (scan_visit_expr (wrapper_call_match s callee args) callee) args

def scan_visit_exprs (s : ScanState) : List Expr → ScanState
  | [] => s
  | e :: es => scan_visit_exprs (scan_visit_expr s e) es

end

/-- True for a default import specifier (swc `as_default`). -/
def is_default_specifier : ImportSpecifier → Bool
  | .importDefaultSpecifier _ => true
  | _ => false

/-- DynamicImportVisitor::visit_import_decl: when the source is
"next/dynamic" and the first specifier is a default specifier, its local
binding becomes the tracked identifier. -/
def visit_import_decl (s : ScanState) (src : String)
    (specifiers : List ImportSpecifier) : ScanState :=
  if src = "next/dynamic" then
    match specifiers.head? with
    | some (.importDefaultSpecifier localName) => { s with dynamic_ident := some localName }
    | _ => s
  else s

def scan_module_item (s : ScanState) : ModuleItem → ScanState
  | .importDecl src specifiers => visit_import_decl s src specifiers
  | .stmt e => scan_visit_expr s e

/-- Running `program.visit_with(&mut DynamicImportVisitor::new())` and reading
off the collected import sources. -/
def collect_import_sources (program : List ModuleItem) : List String :=
  (program.foldl scan_module_item
    { dynamic_ident := none, import_sources := [] }).import_sources

/-- True when the program contains an import declaration from "next/dynamic"
carrying a default specifier. -/
def has_next_dynamic_default_import (program : List ModuleItem) : Bool :=
  program.any fun item =>
    match item with
    | .importDecl src specifiers =>
        src == "next/dynamic" && specifiers.any is_default_specifier
    | .stmt _ => false

/-! Resolution stage of `build_dynamic_imports_map_for_module` (lines 139-159):
each collected literal is resolved with `esm_resolve(..).first_module()`; a
literal that resolves to no module is skipped, the others are kept in order. -/

def resolve_import_sources (resolve : String → Option ModuleRef) :
    List String → List (String × ModuleRef)
  | [] => []
  | i :: rest =>
      match resolve i with
      | some m => (i, m) :: resolve_import_sources resolve rest
      | none => resolve_import_sources resolve rest

/-- Embedding of `build_dynamic_imports_map_for_module`.  The external
collaborators are oracles: `failsafe_parse` combines the `EcmascriptParsable`
sidecast and the failsafe parse (`none` when either yields nothing), and
`esm_resolve_first_module` is `esm_resolve(..).first_module()` in the context
of the given origin module.  A `none` result is the `Ok(Vc::cell(None))`
early return. -/
def build_dynamic_imports_map_for_module
    (failsafe_parse : ModuleRef → Option (List ModuleItem))
    (esm_resolve_first_module : ModuleRef → String → Option ModuleRef)
    (server_module : ModuleRef) :
    Option (ModuleRef × List (String × ModuleRef)) :=
  match failsafe_parse server_module with
  | none => none
  | some program =>
      let sources := collect_import_sources program
      if sources.isEmpty then none
      else
        some (server_module,
          resolve_import_sources (esm_resolve_first_module server_module) sources)

/-! Module graph classification (`map_next_dynamic`, lines 283-317).  A Rust
trait object has exactly one concrete type, so the two
`ResolvedVc::try_downcast_type` calls in the source can never both succeed on
the same node; the concrete type is embedded as a closed enumeration. -/

inductive ModuleConcreteType where
  | nextDynamicEntryModule
  | ecmascriptClientReferenceModule
  | otherModule
deriving DecidableEq

/-- A node of `SingleModuleGraph` as consumed by `map_next_dynamic`: its
module, its optional layer tag, and its concrete module type. -/
structure GraphNode where
  module : ModuleRef
  layer : Option String
  ty : ModuleConcreteType
deriving DecidableEq

/-- ResolvedVc::try_downcast_type for `NextDynamicEntryModule`. -/
def try_downcast_next_dynamic_entry (n : GraphNode) : Option ModuleRef :=
  if n.ty = .nextDynamicEntryModule then some n.module else none

/-- ResolvedVc::try_downcast_type for `EcmascriptClientReferenceModule`. -/
def try_downcast_client_reference (n : GraphNode) : Option ModuleRef :=
  if n.ty = .ecmascriptClientReferenceModule then some n.module else none

/-- The layer test of line 291: the layer is present and equals "app-client"
or "client". -/
def is_app_client_or_client_layer (layer : Option String) : Bool :=
  match layer with
  | some l => l == "app-client" || l == "client"
  | none => false

inductive DynamicImportEntriesMapType where
  | dynamicEntry (m : ModuleRef)
  | clientReference (m : ModuleRef)
deriving DecidableEq

/-- Classification of one node inside `map_next_dynamic`: when the layer is
"app-client" or "client" and the node downcasts to a dynamic entry module it
becomes `dynamicEntry`; failing that, a node that downcasts to a client
reference module becomes `clientReference` (no layer condition on this arm);
otherwise the node is left unclassified. -/
def map_next_dynamic_node (n : GraphNode) :
    Option (ModuleRef × DynamicImportEntriesMapType) :=
  match (if is_app_client_or_client_layer n.layer
         then try_downcast_next_dynamic_entry n else none) with
  | some dynamic_entry_module =>
      some (n.module, .dynamicEntry dynamic_entry_module)
  | none =>
      match try_downcast_client_reference n with
      | some client_reference_module =>
          some (n.module, .clientReference client_reference_module)
      | none => none

/-- FxIndexMap insertion: an existing key keeps its position and takes the
new value; a new key is appended. -/
def index_map_insert {α β : Type} [DecidableEq α]
    (m : List (α × β)) (k : α) (v : β) : List (α × β) :=
  if m.any (fun kv => kv.1 = k) then
    m.map (fun kv => if kv.1 = k then (k, v) else kv)
  else m ++ [(k, v)]

/-- FxIndexMap::from_iter over an insertion sequence. -/
def index_map_from_list {α β : Type} [DecidableEq α]
    (l : List (α × β)) : List (α × β) :=
  l.foldl (fun m kv => index_map_insert m kv.1 kv.2) []

/-- Embedding of `map_next_dynamic`: classify every enumerated node,
`try_flat_join` keeps the classified ones in enumeration order, and the
result is collected into an FxIndexMap. -/
def map_next_dynamic (graph : List GraphNode) :
    List (ModuleRef × DynamicImportEntriesMapType) :=
  index_map_from_list (graph.filterMap map_next_dynamic_node)

/-! Chunk aggregation (`collect_next_dynamic_chunks`, lines 34-89). -/

/-- Modelled from the spec: turbopack's `AvailabilityInfo` (the chunk scope)
is external to this repository; the aggregator only constructs `Root` or
copies a value out of `client_reference_chunks`, so an abstract payload
suffices for the remaining variants. -/
inductive AvailabilityInfo where
  | root
  | untracked
  | complete (available_modules : Nat)
deriving DecidableEq

/-- Modelled from the spec: `next_core::next_app::ClientReferencesChunks` is
external to this repository; the aggregator reads only its
`client_component_client_chunks` map, whose values pair a chunk-group handle
with the availability info of that client reference's chunk group. -/
structure ClientReferencesChunks where
  client_component_client_chunks : List (Nat × (Nat × AvailabilityInfo))
deriving DecidableEq

/-- Association-list lookup (the `.get(..)` of the chunks map; a client
reference type is an opaque key). -/
def assoc_get {β : Type} : List (Nat × β) → Nat → Option β
  | [], _ => none
  | kv :: rest, k => if kv.1 = k then some kv.2 else assoc_get rest k

/-- Lines 49-60: the availability info for the parent chunk group.  With a
parent client reference the code unwraps `client_reference_chunks` and the
map entry for that parent (a missing one panics, modelled `none`); without a
parent the info is `Root`. -/
def parent_availability_info (client_reference_chunks : Option ClientReferencesChunks) :
    Option Nat → Option AvailabilityInfo
  | some parent_client_reference =>
      match client_reference_chunks with
      | none => none
      | some chunks =>
          match assoc_get chunks.client_component_client_chunks parent_client_reference with
          | none => none
          | some pr => some pr.2
  | none => some .root

/-- External chunking services consumed by the aggregator, as oracles:
the references of the async loader chunk item built for a module under an
availability info, the primary output assets reachable from a chunk
reference, and the id of a module's chunk item. -/
structure ChunkingContext where
  async_loader_references : ModuleRef → AvailabilityInfo → List ChunkRef
  primary_output_assets : ChunkRef → List OutputAssetRef
  chunk_item_id : ModuleRef → ModuleIdStr

/-- The body of the per-entry closure (lines 44-84): compute the parent
availability info (propagating a panic), list the async loader's references,
flatten each reference's primary output assets in order, and pair the entry
with its chunk item id and that asset list. -/
def process_dynamic_entry (ctx : ChunkingContext)
    (client_reference_chunks : Option ClientReferencesChunks)
    (entry : ModuleRef × Option Nat) :
    Option (ModuleRef × ModuleIdStr × List OutputAssetRef) :=
  match parent_availability_info client_reference_chunks entry.2 with
  | none => none
  | some availability_info =>
      let async_chunk_group :=
        ((ctx.async_loader_references entry.1 availability_info).map
          ctx.primary_output_assets).flatten
      some (entry.1, ctx.chunk_item_id entry.1, async_chunk_group)

/-- try_join over already-computed per-entry results: all must succeed. -/
def option_try_join {α : Type} : List (Option α) → Option (List α)
  | [] => some []
  | none :: _ => none
  | some a :: rest => (option_try_join rest).map (a :: ·)

/-- The `try_join` of the per-entry closures, before the FxIndexMap is
formed. -/
def collect_next_dynamic_chunks_list (ctx : ChunkingContext)
    (dynamic_import_entries : List (ModuleRef × Option Nat))
    (client_reference_chunks : Option ClientReferencesChunks) :
    Option (List (ModuleRef × ModuleIdStr × List OutputAssetRef)) :=
  option_try_join
    (dynamic_import_entries.map (process_dynamic_entry ctx client_reference_chunks))

/-- Embedding of `collect_next_dynamic_chunks`: the joined per-entry results
collected into an FxIndexMap keyed by the dynamic entry module. -/
def collect_next_dynamic_chunks (ctx : ChunkingContext)
    (dynamic_import_entries : List (ModuleRef × Option Nat))
    (client_reference_chunks : Option ClientReferencesChunks) :
    Option (List (ModuleRef × ModuleIdStr × List OutputAssetRef)) :=
  (collect_next_dynamic_chunks_list ctx dynamic_import_entries client_reference_chunks).map
    (fun l => index_map_from_list (l.map (fun e => (e.1, e))) |>.map (fun kv => kv.2))

/-! Manifest emission (`create_react_loadable_manifest`, loadable_manifest.rs). -/

/-- Modelled from the spec: `next_core::next_manifests::LoadableManifest` is
external to this repository; per the produced-artifact schema it carries the
entry id and the ordered relative file paths. -/
structure LoadableManifest where
  id : String
  files : List String
deriving DecidableEq

/-- Lines 30-41: each asset is mapped to its path relative to the configured
client root (`get_path_to`, an external file-system capability passed here as
the oracle `path_to`); `try_flat_join` keeps the computable paths in order
and drops the others. -/
def manifest_files (path_to : OutputAssetRef → Option String)
    (assets : List OutputAssetRef) : List String :=
  assets.filterMap path_to

/-- std HashMap insertion, as a keyed store: the map is a function from key
to stored value (iteration order is handled separately, see below). -/
def hash_map_insert (m : String → Option LoadableManifest)
    (k : String) (v : LoadableManifest) : String → Option LoadableManifest :=
  fun q => if q = k then some v else m q

/-- Lines 22-49: fold the aggregator's entries into the
`HashMap<RcStr, LoadableManifest>`, keyed by the stringified module id;
a duplicate id overwrites (last write wins). -/
def create_react_loadable_manifest_map
    (path_to : OutputAssetRef → Option String)
    (dynamic_import_entries : List (ModuleRef × ModuleIdStr × List OutputAssetRef)) :
    String → Option LoadableManifest :=
  dynamic_import_entries.foldl
    (fun m e =>
      hash_map_insert m e.2.1
        { id := e.2.1, files := manifest_files path_to e.2.2 })
    (fun _ => none)

/-- JSON rendering of a string (the ids and paths in play contain no
characters that serde_json would escape). -/
def json_str (s : String) : String := "\"" ++ s ++ "\""

/-- Modelled from the spec: the files array of one manifest record, as
serde_json::to_string_pretty renders it at nesting depth two. -/
def render_files_json : List String → String
  | [] => "[]"
  | files =>
      "[\n" ++ String.intercalate ",\n" (files.map (fun f => "      " ++ json_str f))
        ++ "\n    ]"

/-- Modelled from the spec: one key/record pair of the manifest document. -/
def render_manifest_entry_json (kv : String × LoadableManifest) : String :=
  "  " ++ json_str kv.1 ++ ": \x7b\n    " ++ json_str "id" ++ ": "
    ++ json_str kv.2.id ++ ",\n    " ++ json_str "files" ++ ": "
    ++ render_files_json kv.2.files ++ "\n  \x7d"

/-- Modelled from the spec: serde_json::to_string_pretty of the manifest map,
applied to the map's entries in their iteration order. -/
def serde_json_to_string_pretty : List (String × LoadableManifest) → String
  | [] => "\x7b\x7d"
  | entries =>
      "\x7b\n" ++ String.intercalate ",\n" (entries.map render_manifest_entry_json)
        ++ "\n\x7d"

/-- The serialized document produced by `create_react_loadable_manifest`.
The source iterates a `std::collections::HashMap`, whose iteration order is
a property of the process's random hasher state and not of the map contents;
that order is therefore an explicit argument here: the serializer walks the
given key sequence and emits the stored record of each key that is present. -/
def create_react_loadable_manifest_output
    (path_to : OutputAssetRef → Option String)
    (dynamic_import_entries : List (ModuleRef × ModuleIdStr × List OutputAssetRef))
    (iteration_order : List String) : String :=
  serde_json_to_string_pretty
    (iteration_order.filterMap (fun k =>
      (create_react_loadable_manifest_map path_to dynamic_import_entries k).map
        (fun v => (k, v))))

/-! Concrete sample oracles, used to evaluate the pipeline at specific
inputs. -/

def sample_ctx : ChunkingContext :=
  { async_loader_references := fun m _ => [m, m + 10],
    primary_output_assets := fun r => [r, r],
    chunk_item_id := fun _ => "id1" }

def sample_crc : ClientReferencesChunks :=
  { client_component_client_chunks := [(7, (99, .complete 3))] }

def sample_resolve : String → Option ModuleRef :=
  fun s => if s = "./a" then some 1 else if s = "./b" then some 2 else none

def sample_path_to : OutputAssetRef → Option String :=
  fun a => if a = 5 then none else some (toString a ++ ".js")

/-! Theorems. -/

/-- C2: classification of a module-graph node.  A node that downcasts to a
client reference module and is not classified as a dynamic entry is
classified `clientReference` whatever its layer tag; a node is classified
`dynamicEntry` exactly when it is not a client reference module, its layer
tag is "client" or "app-client", and it downcasts to a dynamic entry module
(in the source the two downcasts can never both succeed, a trait object
having a single concrete type, so the dynamic-entry-first order of the code
coincides with the boundary-reference-first rule); and no node receives both
classifications. -/
theorem map_next_dynamic_node_classification (n : GraphNode) :
    (∀ c, try_downcast_client_reference n = some c →
      map_next_dynamic_node n = some (n.module, .clientReference c))
    ∧ (∀ d, map_next_dynamic_node n = some (n.module, .dynamicEntry d) ↔
        (try_downcast_client_reference n = none
          ∧ is_app_client_or_client_layer n.layer = true
          ∧ try_downcast_next_dynamic_entry n = some d))
    ∧ (∀ d c, ¬ (map_next_dynamic_node n = some (n.module, .dynamicEntry d)
        ∧ map_next_dynamic_node n = some (n.module, .clientReference c))) := by
  obtain ⟨m, layer, ty⟩ := n
  cases h : is_app_client_or_client_layer layer <;>
    cases ty <;>
      simp [map_next_dynamic_node, try_downcast_client_reference,
        try_downcast_next_dynamic_entry, h]

/-- Witness for C2 at a concrete node: a client reference module on the
"client" layer is classified `clientReference`. -/
theorem map_next_dynamic_node_classification_witness :
    map_next_dynamic_node
      { module := 0, layer := some "client", ty := .ecmascriptClientReferenceModule }
      = some (0, .clientReference 0) :=
  (map_next_dynamic_node_classification
    { module := 0, layer := some "client", ty := .ecmascriptClientReferenceModule }).1
    0 (by decide)

/-- C3 counterexample: the claim says a literal is recorded only when the
dynamic-import expression's sole argument is a string literal, but on the program
with the wrapper call dynamic(() => import("./x", "y")) the import
expression has two arguments and the scanner still records "./x". -/
theorem scanner_records_despite_second_argument :
    collect_import_sources
      [ .importDecl "next/dynamic" [.importDefaultSpecifier "dynamic"],
        .stmt (.call (.ident "dynamic")
          [.arrow (.importCall [.strLit "./x", .strLit "y"])]) ]
      = ["./x"]
    ∧ ([Expr.strLit "./x", Expr.strLit "y"] : List Expr).length ≠ 1 := by
  constructor <;> decide

mutual

/-- A literal returned by the collector over an expression either was already
the accumulator or names an inspectable import expression whose first
argument is that string literal. -/
theorem collect_visit_expr_sees :
    ∀ (e : Expr) (s : Option String) (v : String),
      collect_visit_expr s e = some v →
      s = some v ∨ inspected_import_expr v e = true
  | .ident _, _, _, h => Or.inl h
  | .strLit _, _, _, h => Or.inl h
  | .numLit _, _, _, h => Or.inl h
  | .call _ _, _, _, h => Or.inl h
  | .importCall args, s, v, h => by
      cases args with
      | nil => exact Or.inl h
      | cons a rest =>
          cases a with
          | strLit w =>
              have hw : w = v := by simpa [collect_visit_expr] using h
              exact Or.inr (by simp [inspected_import_expr, hw])
          | ident x => exact Or.inl (by simpa [collect_visit_expr] using h)
          | numLit x => exact Or.inl (by simpa [collect_visit_expr] using h)
          | call c as => exact Or.inl (by simpa [collect_visit_expr] using h)
          | importCall as => exact Or.inl (by simpa [collect_visit_expr] using h)
          | arrow b => exact Or.inl (by simpa [collect_visit_expr] using h)
          | otherNode cs => exact Or.inl (by simpa [collect_visit_expr] using h)
  | .arrow body, s, v, h => by
      rcases collect_visit_expr_sees body s v h with h1 | h1
      · exact Or.inl h1
      · exact Or.inr (by simpa [inspected_import_expr] using h1)
  | .otherNode children, s, v, h => by
      rcases collect_visit_exprs_sees children s v h with h1 | h1
      · exact Or.inl h1
      · exact Or.inr (by simpa [inspected_import_expr] using h1)

/-- A literal returned by the collector over an expression list either was
already the accumulator or names an inspectable import expression in the
list. -/
theorem collect_visit_exprs_sees :
    ∀ (es : List Expr) (s : Option String) (v : String),
      collect_visit_exprs s es = some v →
      s = some v ∨ inspected_import_exprs v es = true
  | [], _, _, h => Or.inl h
  | e :: es, s, v, h => by
      rcases collect_visit_exprs_sees es (collect_visit_expr s e) v h with h1 | h1
      · rcases collect_visit_expr_sees e s v h1 with h2 | h2
        · exact Or.inl h2
        · exact Or.inr (by simp [inspected_import_exprs, h2])
      · exact Or.inr (by simp [inspected_import_exprs, h1])

end

/-- C3 amended: for every wrapper call whose callee identifier equals the
tracked local binding, the scanner's handling of that call is a function of
the call's immediate argument list alone (the identifier callee contributes
nothing to the collection); whenever a literal is recorded, some import
expression inspectable inside those arguments — the collector never descends
into nested calls — has that string literal as its first argument; and any
further arguments of the import expression are ignored (the recorded literal
is independent of them). -/
theorem scanner_wrapper_call_inspection
    (s : ScanState) (d sym : String) (args : List Expr)
    (hd : s.dynamic_ident = some d) :
    wrapper_call_match s (.ident sym) args
      = (if sym = d then
          match collect_visit_exprs none args with
          | some v => { s with import_sources := s.import_sources ++ [v] }
          | none => s
        else s)
    ∧ (∀ v, collect_visit_exprs none args = some v →
        inspected_import_exprs v args = true)
    ∧ ∀ (v : String) (rest : List Expr) (s0 : Option String),
        collect_visit_expr s0 (.importCall (.strLit v :: rest)) = some v := by
  refine ⟨?_, ?_, ?_⟩
  · rw [wrapper_call_match, hd]
    rfl
  · intro v h
    rcases collect_visit_exprs_sees args none v h with h1 | h1
    · cases h1
    · exact h1
  · intro v rest s0
    rfl

/-- Witness for C3 amended at a concrete wrapper call whose import expression
carries two arguments: the recorded literal "./x" names an inspectable import
expression with first argument "./x". -/
theorem scanner_wrapper_call_inspection_witness :
    inspected_import_exprs "./x"
      [Expr.arrow (.importCall [.strLit "./x", .strLit "y"])] = true :=
  (scanner_wrapper_call_inspection
      { dynamic_ident := some "L", import_sources := [] } "L" "L"
      [Expr.arrow (.importCall [.strLit "./x", .strLit "y"])] rfl).2.1
    "./x" (by decide)

/-- C4: a module importing the wrapper under any alias L and containing the
single call L(() => import(p)) scans to exactly [p]. -/
theorem scanner_single_wrapper_call_yields (L p : String) :
    collect_import_sources
      [ .importDecl "next/dynamic" [.importDefaultSpecifier L],
        .stmt (.call (.ident L) [.arrow (.importCall [.strLit p])]) ]
      = [p] := by
  simp [collect_import_sources, List.foldl, scan_module_item, visit_import_decl,
    scan_visit_expr, scan_visit_exprs, wrapper_call_match, collect_visit_expr,
    collect_visit_exprs]

/-- C7: the availability info assigned to a dynamic import entry is a
function of its parent client reference alone: two entries with the same
parent receive equal availability info, and an entry without a parent
receives Root. -/
theorem parent_availability_info_determined
    (crc : Option ClientReferencesChunks) (p : Nat)
    (e1 e2 : ModuleRef × Option Nat) :
    (e1.2 = some p → e2.2 = some p →
      parent_availability_info crc e1.2 = parent_availability_info crc e2.2)
    ∧ (e1.2 = none → parent_availability_info crc e1.2 = some .root) := by
  constructor
  · intro h1 h2
    rw [h1, h2]
  · intro h
    rw [h]
    simp [parent_availability_info]

/-- Witness for C7 at concrete entries sharing parent 7, and a parentless
entry. -/
theorem parent_availability_info_determined_witness :
    (parent_availability_info
        (some { client_component_client_chunks := [(7, (99, .complete 3))] })
        ((1, some 7) : ModuleRef × Option Nat).2
      = parent_availability_info
        (some { client_component_client_chunks := [(7, (99, .complete 3))] })
        ((2, some 7) : ModuleRef × Option Nat).2)
    ∧ parent_availability_info
        (some { client_component_client_chunks := [(7, (99, .complete 3))] })
        ((3, none) : ModuleRef × Option Nat).2 = some .root :=
  ⟨(parent_availability_info_determined
      (some { client_component_client_chunks := [(7, (99, .complete 3))] })
      7 (1, some 7) (2, some 7)).1 rfl rfl,
   (parent_availability_info_determined
      (some { client_component_client_chunks := [(7, (99, .complete 3))] })
      7 (3, none) (2, some 7)).2 rfl⟩

/-- With no tracked binding, a wrapper-call check changes nothing. -/
theorem wrapper_call_match_no_binding (s : ScanState) (callee : Expr)
    (args : List Expr) (h : s.dynamic_ident = none) :
    wrapper_call_match s callee args = s := by
  cases callee <;> simp [wrapper_call_match, h]

mutual

/-- With no tracked binding, visiting an expression changes nothing. -/
theorem scan_visit_expr_no_binding :
    ∀ (e : Expr) (s : ScanState), s.dynamic_ident = none → scan_visit_expr s e = s
  | .ident _, _, _ => rfl
  | .strLit _, _, _ => rfl
  | .numLit _, _, _ => rfl
  | .arrow body, s, h => scan_visit_expr_no_binding body s h
  | .otherNode children, s, h => scan_visit_exprs_no_binding children s h
  | .importCall args, s, h => scan_visit_exprs_no_binding args s h
  | .call callee args, s, h => by
      show scan_visit_exprs
        (scan_visit_expr (wrapper_call_match s callee args) callee) args = s
      rw [wrapper_call_match_no_binding s callee args h,
        scan_visit_expr_no_binding callee s h,
        scan_visit_exprs_no_binding args s h]

/-- With no tracked binding, visiting a list of expressions changes
nothing. -/
theorem scan_visit_exprs_no_binding :
    ∀ (es : List Expr) (s : ScanState), s.dynamic_ident = none → scan_visit_exprs s es = s
  | [], _, _ => rfl
  | e :: es, s, h => by
      show scan_visit_exprs (scan_visit_expr s e) es = s
      rw [scan_visit_expr_no_binding e s h, scan_visit_exprs_no_binding es s h]

end

/-- An import declaration that is not a default import from "next/dynamic"
leaves the scan state unchanged. -/
theorem visit_import_decl_no_default (s : ScanState) (src : String)
    (specifiers : List ImportSpecifier)
    (h : (src == "next/dynamic" && specifiers.any is_default_specifier) = false) :
    visit_import_decl s src specifiers = s := by
  unfold visit_import_decl
  by_cases hsrc : src = "next/dynamic"
  · subst hsrc
    simp at h
    cases specifiers with
    | nil => simp
    | cons sp rest =>
        cases sp with
        | importDefaultSpecifier l => simp [is_default_specifier] at h
        | importNamedSpecifier l => simp
  · simp [hsrc]

/-- C5: a module whose program contains no default import from
"next/dynamic" scans to the empty sequence of import sources. -/
theorem scanner_empty_without_wrapper_import (program : List ModuleItem)
    (h : has_next_dynamic_default_import program = false) :
    collect_import_sources program = [] := by
  have aux : ∀ (items : List ModuleItem) (s : ScanState), s.dynamic_ident = none →
      has_next_dynamic_default_import items = false →
      items.foldl scan_module_item s = s := by
    intro items
    induction items with
    | nil => intro s _ _; rfl
    | cons item rest ih =>
        intro s hs hfalse
        rw [has_next_dynamic_default_import, List.any_cons,
          Bool.or_eq_false_iff] at hfalse
        obtain ⟨hitem, hrest⟩ := hfalse
        have hstep : scan_module_item s item = s := by
          cases item with
          | importDecl src specifiers => exact visit_import_decl_no_default s src specifiers hitem
          | stmt e => exact scan_visit_expr_no_binding e s hs
        rw [List.foldl_cons, hstep]
        exact ih s hs hrest
  rw [collect_import_sources, aux program { dynamic_ident := none, import_sources := [] } rfl h]

/-- Witness for C5: a program with a bare dynamic import and no wrapper-package
default import scans to nothing. -/
theorem scanner_empty_without_wrapper_import_witness :
    has_next_dynamic_default_import [ModuleItem.stmt (.importCall [.strLit "./y"])] = false
    ∧ collect_import_sources [ModuleItem.stmt (.importCall [.strLit "./y"])] = [] :=
  ⟨by decide,
   scanner_empty_without_wrapper_import
     [ModuleItem.stmt (.importCall [.strLit "./y"])] (by decide)⟩

/-- The resolution loop distributes over concatenation of the literal
sequence. -/
theorem resolve_import_sources_append (r : String → Option ModuleRef)
    (l1 l2 : List String) :
    resolve_import_sources r (l1 ++ l2)
      = resolve_import_sources r l1 ++ resolve_import_sources r l2 := by
  induction l1 with
  | nil => rfl
  | cons i rest ih =>
      rw [List.cons_append]
      rw [resolve_import_sources, resolve_import_sources]
      cases r i <;> simp [ih]

/-- A literal that resolves is present in the resolved pairs. -/
theorem resolve_import_sources_mem (r : String → Option ModuleRef)
    (l : List String) (i : String) (m : ModuleRef)
    (hi : r i = some m) (hmem : i ∈ l) :
    (i, m) ∈ resolve_import_sources r l := by
  induction l with
  | nil => cases hmem
  | cons j rest ih =>
      rw [resolve_import_sources]
      rcases List.mem_cons.mp hmem with hj | hj
      · subst hj
        rw [hi]
        exact List.mem_cons_self _ _
      · cases r j <;> simp only []
        · exact ih hj
        · exact List.mem_cons_of_mem _ (ih hj)

/-- C6: a literal whose resolution yields no module is silently omitted from
the resolved pairs and does not block its siblings: the loop over a literal
sequence containing an unresolvable literal produces exactly the pairs of the
sequence without it, every sibling that resolves still appears, and for a
parsed module whose scan produced that sequence the whole per-module map is
the one of the sequence without the unresolvable literal. -/
theorem resolver_drops_failures_independently
    (r : String → Option ModuleRef) (l1 l2 : List String) (bad : String)
    (hbad : r bad = none) :
    resolve_import_sources r (l1 ++ bad :: l2) = resolve_import_sources r (l1 ++ l2)
    ∧ (∀ i m, r i = some m → i ∈ l1 ++ l2 →
        (i, m) ∈ resolve_import_sources r (l1 ++ bad :: l2))
    ∧ ∀ (parse : ModuleRef → Option (List ModuleItem)) (server_module : ModuleRef)
        (program : List ModuleItem),
        parse server_module = some program →
        collect_import_sources program = l1 ++ bad :: l2 →
        build_dynamic_imports_map_for_module parse (fun _ => r) server_module
          = some (server_module, resolve_import_sources r (l1 ++ l2)) := by
  have hdrop : resolve_import_sources r (l1 ++ bad :: l2)
      = resolve_import_sources r (l1 ++ l2) := by
    rw [resolve_import_sources_append, resolve_import_sources_append,
      resolve_import_sources, hbad]
  refine ⟨hdrop, ?_, ?_⟩
  · intro i m hi hmem
    rw [hdrop]
    rcases List.mem_append.mp hmem with hm | hm
    · exact resolve_import_sources_mem r _ i m hi (List.mem_append_left _ hm)
    · exact resolve_import_sources_mem r _ i m hi (List.mem_append_right _ hm)
  · intro parse server_module program hparse hscan
    rw [build_dynamic_imports_map_for_module, hparse]
    simp only [hscan]
    have hne : (l1 ++ bad :: l2).isEmpty = false := by
      cases l1 <;> rfl
    rw [hne]
    simp only [Bool.false_eq_true, if_false, hdrop]

/-- Witness for C6 at a concrete resolver and literal sequence: "./bad" does
not resolve, "./a" and "./b" around it still do. -/
theorem resolver_drops_failures_independently_witness :
    resolve_import_sources sample_resolve (["./a"] ++ "./bad" :: ["./b"])
      = resolve_import_sources sample_resolve (["./a"] ++ ["./b"])
    ∧ ("./b", 2) ∈ resolve_import_sources sample_resolve (["./a"] ++ "./bad" :: ["./b"]) :=
  ⟨(resolver_drops_failures_independently sample_resolve ["./a"] ["./b"] "./bad"
      (by decide)).1,
   (resolver_drops_failures_independently sample_resolve ["./a"] ["./b"] "./bad"
      (by decide)).2.1 "./b" 2 (by decide) (by decide)⟩

/-- C9: an asset for which no path relative to the client output root can be
computed contributes nothing to an entry's files list, and dropping it does
not remove the entry from the manifest: the emitted map over entries carrying
that asset equals the emitted map over the same entries without it (the entry
is still inserted, with its id and the remaining files). -/
theorem emitter_drops_unmappable_asset_keeps_entry
    (path_to : OutputAssetRef → Option String)
    (pre post : List (ModuleRef × ModuleIdStr × List OutputAssetRef))
    (m : ModuleRef) (id : ModuleIdStr)
    (l1 l2 : List OutputAssetRef) (a : OutputAssetRef)
    (ha : path_to a = none) :
    manifest_files path_to (l1 ++ a :: l2) = manifest_files path_to (l1 ++ l2)
    ∧ create_react_loadable_manifest_map path_to (pre ++ (m, id, l1 ++ a :: l2) :: post)
      = create_react_loadable_manifest_map path_to (pre ++ (m, id, l1 ++ l2) :: post) := by
  have hfiles : manifest_files path_to (l1 ++ a :: l2)
      = manifest_files path_to (l1 ++ l2) := by
    simp [manifest_files, List.filterMap_append, List.filterMap_cons, ha]
  refine ⟨hfiles, ?_⟩
  unfold create_react_loadable_manifest_map
  rw [List.foldl_append, List.foldl_append, List.foldl_cons, List.foldl_cons, hfiles]

/-- Witness for C9: asset 5 has no relative path; the emitted maps with and
without it coincide, and the entry's files keep the mappable assets. -/
theorem emitter_drops_unmappable_asset_keeps_entry_witness :
    manifest_files sample_path_to ([1] ++ 5 :: [2]) = manifest_files sample_path_to ([1] ++ [2])
    ∧ create_react_loadable_manifest_map sample_path_to ([] ++ (0, "a", [1] ++ 5 :: [2]) :: [])
      = create_react_loadable_manifest_map sample_path_to ([] ++ (0, "a", [1] ++ [2]) :: []) :=
  emitter_drops_unmappable_asset_keeps_entry sample_path_to [] [] 0 "a" [1] [2] 5 (by decide)

/-- C1: the serialized manifest document is not a deterministic function of
the aggregator's entry-to-(id, assets) map.  The emitter stores the records
in a std HashMap and serializes it in iteration order, and that order depends
on the process's random hasher state, not on the map contents: for the
two-entry aggregate with ids "a" and "b", the two possible iteration orders
are permutations of one another, both enumerate keys present in the emitted
map, and they serialize to different byte sequences.  Hence two builds of an
unchanged graph need not produce byte-identical manifest output. -/
theorem manifest_serialization_depends_on_hash_iteration_order :
    (["a", "b"] : List String).Perm ["b", "a"]
    ∧ (create_react_loadable_manifest_map (fun _ => none)
        [(0, "a", []), (1, "b", [])] "a").isSome = true
    ∧ (create_react_loadable_manifest_map (fun _ => none)
        [(0, "a", []), (1, "b", [])] "b").isSome = true
    ∧ create_react_loadable_manifest_output (fun _ => none)
        [(0, "a", []), (1, "b", [])] ["a", "b"]
      ≠ create_react_loadable_manifest_output (fun _ => none)
        [(0, "a", []), (1, "b", [])] ["b", "a"] := by
  refine ⟨by decide, by decide, by decide, by decide⟩

/-- C8: when aggregation succeeds, each entry's output asset list is exactly
the flatten, over the async loader's chunk references in reference order, of
each reference's primary output assets in their own order (no deduplication),
paired with the entry's chunk item id. -/
theorem collect_assets_are_flattened_reference_assets
    (ctx : ChunkingContext) (entries : List (ModuleRef × Option Nat))
    (crc : Option ClientReferencesChunks)
    (out : List (ModuleRef × ModuleIdStr × List OutputAssetRef))
    (h : collect_next_dynamic_chunks_list ctx entries crc = some out) :
    out.length = entries.length
    ∧ ∀ (i : Nat) (e : ModuleRef × Option Nat), entries[i]? = some e →
        ∃ avail, parent_availability_info crc e.2 = some avail
          ∧ out[i]? = some (e.1, ctx.chunk_item_id e.1,
              ((ctx.async_loader_references e.1 avail).map
                ctx.primary_output_assets).flatten) := by
  induction entries generalizing out with
  | nil =>
      rw [collect_next_dynamic_chunks_list, List.map_nil, option_try_join] at h
      obtain rfl := Option.some.inj h
      exact ⟨rfl, by intro i e he; simp at he⟩
  | cons ent rest ih =>
      rw [collect_next_dynamic_chunks_list, List.map_cons] at h
      cases hp : process_dynamic_entry ctx crc ent with
      | none => rw [hp, option_try_join] at h; cases h
      | some a =>
          rw [hp, option_try_join] at h
          rcases Option.map_eq_some'.mp h with ⟨out', hj, hout⟩
          subst hout
          have hrest : collect_next_dynamic_chunks_list ctx rest crc = some out' := by
            rw [collect_next_dynamic_chunks_list]; exact hj
          obtain ⟨hlen, hidx⟩ := ih out' hrest
          cases hav : parent_availability_info crc ent.2 with
          | none => simp [process_dynamic_entry, hav] at hp
          | some avail =>
              simp only [process_dynamic_entry, hav] at hp
              refine ⟨by simp [hlen], ?_⟩
              intro i e he
              cases i with
              | zero =>
                  simp only [List.getElem?_cons_zero, Option.some.injEq] at he
                  subst he
                  exact ⟨avail, hav, by simp [← hp]⟩
              | succ n =>
                  simp only [List.getElem?_cons_succ] at he ⊢
                  exact hidx n e he

/-- Witness for C8 at a concrete context: the single parentless entry 1 under
sample_ctx yields assets [1, 1, 11, 11], the flatten of the two references'
duplicated assets. -/
theorem collect_assets_are_flattened_reference_assets_witness :
    ∃ avail, parent_availability_info none ((1, none) : ModuleRef × Option Nat).2 = some avail
      ∧ ([((1 : ModuleRef), ("id1" : ModuleIdStr), ([1, 1, 11, 11] : List OutputAssetRef))])[0]?
          = some (((1, none) : ModuleRef × Option Nat).1,
              sample_ctx.chunk_item_id ((1, none) : ModuleRef × Option Nat).1,
              ((sample_ctx.async_loader_references ((1, none) : ModuleRef × Option Nat).1 avail).map
                sample_ctx.primary_output_assets).flatten) :=
  (collect_assets_are_flattened_reference_assets sample_ctx [(1, none)] none
    [(1, "id1", [1, 1, 11, 11])] (by rfl)).2 0 (1, none) rfl

/-- A panicking entry makes the whole join panic. -/
theorem collect_list_none_of_process_none (ctx : ChunkingContext)
    (crc : Option ClientReferencesChunks)
    (entries : List (ModuleRef × Option Nat)) (e : ModuleRef × Option Nat)
    (he : e ∈ entries) (hp : process_dynamic_entry ctx crc e = none) :
    collect_next_dynamic_chunks_list ctx entries crc = none := by
  induction entries with
  | nil => cases he
  | cons ent rest ih =>
      rw [collect_next_dynamic_chunks_list, List.map_cons]
      rcases List.mem_cons.mp he with h1 | h1
      · subst h1
        rw [hp, option_try_join]
      · cases hq : process_dynamic_entry ctx crc ent with
        | none => rw [option_try_join]
        | some a =>
            rw [option_try_join]
            have hr := ih h1
            rw [collect_next_dynamic_chunks_list] at hr
            rw [hr]
            rfl

/-- When every entry processes successfully, the join succeeds. -/
theorem collect_list_isSome_of_processes (ctx : ChunkingContext)
    (crc : Option ClientReferencesChunks)
    (entries : List (ModuleRef × Option Nat))
    (h : ∀ e ∈ entries, (process_dynamic_entry ctx crc e).isSome = true) :
    (collect_next_dynamic_chunks_list ctx entries crc).isSome = true := by
  induction entries with
  | nil => rfl
  | cons ent rest ih =>
      rw [collect_next_dynamic_chunks_list, List.map_cons]
      cases hq : process_dynamic_entry ctx crc ent with
      | none =>
          have := h ent (List.mem_cons_self _ _)
          rw [hq] at this
          cases this
      | some a =>
          rw [option_try_join]
          have hr := ih (fun e he => h e (List.mem_cons_of_mem _ he))
          rw [collect_next_dynamic_chunks_list] at hr
          cases hx : option_try_join (List.map (process_dynamic_entry ctx crc) rest) with
          | none => rw [hx] at hr; cases hr
          | some l => rfl

/-- C10: `collect_next_dynamic_chunks` has the unstated precondition that for
every entry carrying a parent client reference, the chunks argument is
present and its client-component map contains that parent; under the
precondition the two unwraps cannot panic and the aggregation succeeds, and
when the precondition fails for some entry the function panics (modelled as
`none`) instead of returning an error value. -/
theorem collect_unwrap_precondition (ctx : ChunkingContext)
    (entries : List (ModuleRef × Option Nat))
    (crc : Option ClientReferencesChunks) :
    ((∀ e ∈ entries, ∀ p, e.2 = some p →
        ∃ chunks, crc = some chunks
          ∧ (assoc_get chunks.client_component_client_chunks p).isSome = true) →
      (collect_next_dynamic_chunks ctx entries crc).isSome = true)
    ∧ (∀ e ∈ entries, ∀ p, e.2 = some p →
        parent_availability_info crc (some p) = none →
        collect_next_dynamic_chunks ctx entries crc = none) := by
  constructor
  · intro hpre
    rw [collect_next_dynamic_chunks]
    have hlist := collect_list_isSome_of_processes ctx crc entries ?_
    · cases hx : collect_next_dynamic_chunks_list ctx entries crc with
      | none => rw [hx] at hlist; cases hlist
      | some l => rfl
    · intro e he
      cases h2 : e.2 with
      | none => simp [process_dynamic_entry, h2, parent_availability_info]
      | some p =>
          rcases hpre e he p h2 with ⟨chunks, hc, hsome⟩
          subst hc
          cases hlk : assoc_get chunks.client_component_client_chunks p with
          | none => rw [hlk] at hsome; cases hsome
          | some pr =>
              simp [process_dynamic_entry, h2, parent_availability_info, hlk]
  · intro e he p h2 hnone
    rw [collect_next_dynamic_chunks,
      collect_list_none_of_process_none ctx crc entries e he
        (by simp [process_dynamic_entry, h2, hnone])]
    rfl

/-- Witness for C10: a single entry with parent reference 7 under sample_crc,
whose map contains key 7, aggregates successfully. -/
theorem collect_unwrap_precondition_witness :
    (collect_next_dynamic_chunks sample_ctx [(2, some 7)] (some sample_crc)).isSome = true :=
  (collect_unwrap_precondition sample_ctx [(2, some 7)] (some sample_crc)).1
    (by
      intro e he p hp
      have he2 : e = (2, some 7) := by simpa using he
      subst he2
      have hp2 : p = 7 := by simpa using hp.symm
      subst hp2
      exact ⟨sample_crc, rfl, by decide⟩)

end NextApi
